import Mathlib

/-
Verification development for the Google Cloud Trace context propagator
(`google_trace_context_propagator.rs` of opentelemetry-stackdriver).

The propagator is a codec between an in-process span context and the single
header `X-Cloud-Trace-Context`.  The embedding below translates:
  * the data model (SpanContext with 128-bit trace id, 64-bit span id, a raw
    trace-flags byte, the remote marker and the trace state) into Nat-based
    structures;
  * the anchored header grammar, written in the source as the regex string
    `^(?P<trace_id>[0-9a-f]\x7b32\x7d)/(?P<span_id>[0-9]\x7b1,20\x7d)(;o=(?P<trace_flags>[0-9]))?$`,
    into a deterministic matching function on lists of characters (the regex
    is deterministic: the digit run of the span id is maximal because the
    character after it is either the end or a semicolon);
  * the numeric conversions used by the source (the std parsers behind
    `TraceId::from_hex` and `str::parse::<u64>`, and the formatting of
    `format!` with a zero-padded 32-wide lowercase hex field and plain
    decimal fields) into fuel-based digit functions;
  * the carrier (the opentelemetry Extractor/Injector collaborators) into a
    partial map from strings to strings with lowercase keys, per the spec's
    carrier contract (case-insensitive read, overwriting write).
-/

namespace GoogleTraceContext

/-- Modelled from the spec and the opentelemetry collaborator crate: a span
context is the triple of identifiers and flags plus the remote marker and the
trace state.  `traceId` is a u128 value, `spanId` a u64 value, `traceFlags` a
u8 value, each represented as a bounded Nat. -/
structure SpanContext where
  traceId : Nat
  spanId : Nat
  traceFlags : Nat
  isRemote : Bool
  traceState : List (String × String)
deriving DecidableEq

/-- TraceFlags::SAMPLED of the collaborator crate: the byte with bit 0 set. -/
def TraceFlags.SAMPLED : Nat := 1

/-- TraceFlags::NOT_SAMPLED of the collaborator crate: the zero byte. -/
def TraceFlags.NOT_SAMPLED : Nat := 0

/-- SpanContext::is_valid of the collaborator crate: both identifiers are
non-zero (the all-zero values are the invalid sentinels). -/
def SpanContext.is_valid (sc : SpanContext) : Bool :=
  sc.traceId != 0 && sc.spanId != 0

/-- TraceFlags::is_sampled of the collaborator crate: bit 0 of the flags byte
is set. -/
def SpanContext.is_sampled (sc : SpanContext) : Bool :=
  sc.traceFlags % 2 == 1

/-- Modelled from the spec: the ambient context, reduced to the one field the
propagator reads and writes, its span's context. -/
structure Context where
  span : SpanContext
deriving DecidableEq

/-- Context::with_remote_span_context of the collaborator crate: attach the
given span context (already carrying its remote marker) to the context. -/
def Context.with_remote_span_context (_cx : Context) (sc : SpanContext) : Context :=
  ⟨sc⟩

/-- ASCII lowercasing of one character, as used by the carrier on keys. -/
def ascii_lower (c : Char) : Char :=
  if 65 ≤ c.toNat ∧ c.toNat ≤ 90 then Char.ofNat (c.toNat + 32) else c

/-- ASCII lowercasing of a string. -/
def lower_string (s : String) : String :=
  String.mk (s.data.map ascii_lower)

/-- Modelled from the spec: the carrier is an opaque mapping from header
names to values, case-insensitive on read.  The concrete carriers of the
crate store and look up lowercased keys. -/
def Carrier : Type := String → Option String

/-- Extractor::get of the carrier: look the name up under its lowercase
form. -/
def Carrier.get (c : Carrier) (k : String) : Option String :=
  c (lower_string k)

/-- Injector::set of the carrier: store the value under the lowercase form
of the name, overwriting any prior value. -/
def Carrier.set (c : Carrier) (k v : String) : Carrier :=
  fun k2 => if k2 = lower_string k then some v else c k2

/-- Predicate for an ASCII decimal digit, the character class [0-9] of the
grammar. -/
def is_ascii_digit (c : Char) : Bool :=
  decide (48 ≤ c.toNat ∧ c.toNat ≤ 57)

/-- Predicate for a lowercase hex digit, the character class [0-9a-f] of the
grammar. -/
def is_lower_hex (c : Char) : Bool :=
  is_ascii_digit c || decide (97 ≤ c.toNat ∧ c.toNat ≤ 102)

/-- Predicate for a radix-16 digit as accepted by the std integer parser
behind TraceId::from_hex: either case of hex letters. -/
def is_radix16_digit (c : Char) : Bool :=
  is_ascii_digit c || decide (65 ≤ c.toNat ∧ c.toNat ≤ 70)
    || decide (97 ≤ c.toNat ∧ c.toNat ≤ 102)

/-- Unicode White_Space property, the class trimmed by Rust's str::trim. -/
def rust_is_whitespace (c : Char) : Bool :=
  decide ((9 ≤ c.toNat ∧ c.toNat ≤ 13) ∨ c.toNat = 32 ∨ c.toNat = 133 ∨
    c.toNat = 160 ∨ c.toNat = 5760 ∨ (8192 ≤ c.toNat ∧ c.toNat ≤ 8202) ∨
    c.toNat = 8232 ∨ c.toNat = 8233 ∨ c.toNat = 8239 ∨ c.toNat = 8287 ∨
    c.toNat = 12288)

/-- str::trim of the source: drop leading and trailing whitespace. -/
def trim (l : List Char) : List Char :=
  ((l.dropWhile rust_is_whitespace).reverse.dropWhile rust_is_whitespace).reverse

/-- The numeric value of one digit character, as given by the std parsers
(only ever applied to characters accepted by the relevant digit class). -/
def digit_val (c : Char) : Nat :=
  if c.toNat ≤ 57 then c.toNat - 48
  else if c.toNat ≤ 70 then c.toNat - 55
  else c.toNat - 87

/-- The value denoted by a big-endian digit string in the given radix. -/
def radix_value (b : Nat) (cs : List Char) : Nat :=
  cs.foldl (fun a c => a * b + digit_val c) 0

/-- Leading plus sign accepted by the std unsigned integer parsers. -/
def strip_plus (l : List Char) : List Char :=
  match l with
  | [] => []
  | c :: t => if c = '+' then t else c :: t

/-- The std unsigned-integer parse underlying both `from_str_radix` and
`str::parse`: after an optional plus sign the input must be a non-empty
string of digits of the radix, and the denoted value must be below the
type's bound, otherwise the parse fails (overflow is an error, never a
truncation). -/
def from_str_radix_digits (b : Nat) (valid : Char → Bool) (bound : Nat)
    (s : List Char) : Option Nat :=
  let ds := strip_plus s
  if ds ≠ [] ∧ ds.all valid = true then
    if radix_value b ds < bound then some (radix_value b ds) else none
  else none

/-- TraceId::from_hex of the collaborator crate: parse as an unsigned 128-bit
radix-16 integer. -/
def TraceId.from_hex (s : List Char) : Option Nat :=
  from_str_radix_digits 16 is_radix16_digit (2 ^ 128) s

/-- span_id_dec.parse::<u64>() of the source: parse as an unsigned 64-bit
decimal integer.  The subsequent `SpanId::from_bytes(v.to_be_bytes())` of the
source is the identity on the denoted 64-bit value and is left implicit. -/
def parse_u64 (s : List Char) : Option Nat :=
  from_str_radix_digits 10 is_ascii_digit (2 ^ 64) s

/-- The header name constant CLOUD_TRACE_CONTEXT_HEADER of the source. -/
def CLOUD_TRACE_CONTEXT_HEADER : String := "X-Cloud-Trace-Context"

/-- Matching of the source's anchored regex
`^(?P<trace_id>[0-9a-f]\x7b32\x7d)/(?P<span_id>[0-9]\x7b1,20\x7d)(;o=(?P<trace_flags>[0-9]))?$`
returning the three capture groups on success.  The span-id digit run is the
maximal one, which is exactly what the regex engine yields here because the
character following the group is either the end of the input or a semicolon,
never a digit. -/
def regexCaptures (s : List Char) :
    Option (List Char × List Char × Option Char) :=
  if (s.take 32).length = 32 ∧ (s.take 32).all is_lower_hex = true then
    match s.drop 32 with
    | [] => none
    | c :: r2 =>
      if c = '/' then
        if 1 ≤ (r2.takeWhile is_ascii_digit).length ∧
            (r2.takeWhile is_ascii_digit).length ≤ 20 then
          match r2.dropWhile is_ascii_digit with
          | [] => some (s.take 32, r2.takeWhile is_ascii_digit, none)
          | c1 :: c2 :: c3 :: d :: r4 =>
            if c1 = ';' ∧ c2 = 'o' ∧ c3 = '=' ∧ r4 = [] ∧ is_ascii_digit d = true
            then some (s.take 32, r2.takeWhile is_ascii_digit, some d)
            else none
          | _ => none
        else none
      else none
  else none

/-- The trace-flags computation of extract_span_context: the request is
sampled by default and not sampled only when the optional group is exactly
the character 0. -/
def trace_flags_of (m : Option Char) : Nat :=
  match m with
  | none => TraceFlags.SAMPLED
  | some x => if x = '0' then TraceFlags.NOT_SAMPLED else TraceFlags.SAMPLED

/-- Failure sites of the decode path.  The Rust source collapses every
failure to the unit error; this embedding tags each distinct early-return
site of the source with the name the spec's error taxonomy gives it
(regexUnavailable is the site where the lazily compiled pattern turned out
not to compile). -/
inductive DecodeError where
  | missing
  | regexUnavailable
  | malformed
  | invalidTraceId
  | invalidSpanId
  | invalidContext
deriving DecidableEq

/-- construct_span_context of the source: parse both identifier groups,
build the candidate context as remote with empty trace state, and reject it
when it is not valid. -/
def construct_span_context (trace_flags : Nat) (trace_id_hex span_id_dec : List Char) :
    Except DecodeError SpanContext :=
  match TraceId.from_hex trace_id_hex with
  | none => .error .invalidTraceId
  | some trace_id =>
    match parse_u64 span_id_dec with
    | none => .error .invalidSpanId
    | some span_id =>
      let span_context : SpanContext := ⟨trace_id, span_id, trace_flags, true, []⟩
      if span_context.is_valid then .ok span_context else .error .invalidContext

/-- extract_span_context of the source, generalized over the outcome of the
lazy regex compilation (the source holds the compiled pattern as an Option
and early-returns an error when it is none).  The mandatory capture groups
are returned directly by the match, so the source's two ok_or guards on them
can never fire and have no counterpart here. -/
def extract_span_context_gen
    (regex : Option (List Char → Option (List Char × List Char × Option Char)))
    (extractor : Carrier) : Except DecodeError SpanContext :=
  match (extractor.get CLOUD_TRACE_CONTEXT_HEADER).map (fun v => trim v.data) with
  | none => .error .missing
  | some header_value =>
    match regex with
    | none => .error .regexUnavailable
    | some re =>
      match re header_value with
      | none => .error .malformed
      | some (trace_id_hex, span_id_dec, flag) =>
        construct_span_context (trace_flags_of flag) trace_id_hex span_id_dec

/-- extract_span_context of the source, with the pattern compiled (in the
deterministic embedding the compilation always succeeds). -/
def extract_span_context (extractor : Carrier) : Except DecodeError SpanContext :=
  extract_span_context_gen (some regexCaptures) extractor

/-- Little-endian digit list of n in radix b, with enough fuel to exhaust
the value (the recursion of the std formatting machinery, made structural). -/
def nat_digits_rev (b : Nat) : Nat → Nat → List Nat
  | 0, _ => []
  | fuel + 1, n => if n = 0 then [] else n % b :: nat_digits_rev b fuel (n / b)

/-- Big-endian digit-character rendering of n in radix b, as produced by the
std Display and LowerHex formatting: the single character 0 for zero,
otherwise the digits most significant first. -/
def nat_to_base (b fuel n : Nat) : List Char :=
  if n = 0 then ['0'] else ((nat_digits_rev b fuel n).reverse).map Nat.digitChar

/-- Decimal rendering of an unsigned value of at most 64 bits (also used for
the flags byte), 20 digits of fuel. -/
def nat_to_dec (n : Nat) : List Char := nat_to_base 10 20 n

/-- Lowercase hex rendering of an unsigned 128-bit value, 32 digits of
fuel. -/
def nat_to_hex (n : Nat) : List Char := nat_to_base 16 32 n

/-- The 032x format field of the source: lowercase hex, zero-padded on the
left to width 32. -/
def hex_pad32 (n : Nat) : List Char :=
  List.replicate (32 - (nat_to_hex n).length) '0' ++ nat_to_hex n

/-- inject_context of the source: when the span context of the given context
is valid, format trace id as 32-wide zero-padded lowercase hex, a slash, the
span id in decimal, the literal ;o= and the raw flags byte in decimal, and
set the result under the header name; otherwise write nothing. -/
def inject_context (cx : Context) (injector : Carrier) : Carrier :=
  let span_context := cx.span
  let sampled_flag := span_context.traceFlags
  if span_context.is_valid then
    injector.set CLOUD_TRACE_CONTEXT_HEADER
      (String.mk (hex_pad32 span_context.traceId ++ '/' :: nat_to_dec span_context.spanId
        ++ ';' :: 'o' :: '=' :: nat_to_dec sampled_flag))
  else injector

/-- extract_with_context of the source: on a successful extraction attach
the remote span context, on any failure return the given context
unchanged. -/
def extract_with_context (cx : Context) (extractor : Carrier) : Context :=
  match extract_span_context extractor with
  | .ok sc => cx.with_remote_span_context sc
  | .error _ => cx

/-- fields of the source: the one recognized header name. -/
def fields : List String := [CLOUD_TRACE_CONTEXT_HEADER]

/-- The spec's anchored grammar, stated from the spec's words: 32 lowercase
hex digits, a slash, 1 to 20 decimal digits, optionally the literal ;o=
followed by exactly one decimal digit, and nothing else. -/
def matches_header_grammar (x : List Char) : Prop :=
  ∃ t s, t.length = 32 ∧ t.all is_lower_hex = true ∧
    1 ≤ s.length ∧ s.length ≤ 20 ∧ s.all is_ascii_digit = true ∧
    (x = t ++ '/' :: s ∨
      ∃ d, is_ascii_digit d = true ∧ x = t ++ '/' :: (s ++ [';', 'o', '=', d]))

deriving instance DecidableEq for Except

theorem is_ascii_digit_iff {c : Char} :
    is_ascii_digit c = true ↔ 48 ≤ c.toNat ∧ c.toNat ≤ 57 := by
  simp [is_ascii_digit]

theorem is_lower_hex_iff {c : Char} :
    is_lower_hex c = true ↔
      (48 ≤ c.toNat ∧ c.toNat ≤ 57) ∨ (97 ≤ c.toNat ∧ c.toNat ≤ 102) := by
  simp [is_lower_hex, is_ascii_digit]

theorem is_radix16_of_lower_hex {c : Char} (h : is_lower_hex c = true) :
    is_radix16_digit c = true := by
  have h1 := is_lower_hex_iff.mp h
  simp [is_radix16_digit, is_ascii_digit]
  omega

theorem lower_hex_of_ascii_digit {c : Char} (h : is_ascii_digit c = true) :
    is_lower_hex c = true := by
  simp [is_lower_hex, h]

theorem not_ws_of_lower_hex {c : Char} (h : is_lower_hex c = true) :
    rust_is_whitespace c = false := by
  have h1 := is_lower_hex_iff.mp h
  simp [rust_is_whitespace]
  omega

theorem ne_plus_of_lower_hex {c : Char} (h : is_lower_hex c = true) : c ≠ '+' := by
  intro he
  rw [he] at h
  exact absurd h (by decide)

theorem digit_val_lt_of_ascii_digit {c : Char} (h : is_ascii_digit c = true) :
    digit_val c < 10 := by
  have h1 := is_ascii_digit_iff.mp h
  unfold digit_val
  split
  · omega
  · split <;> omega

theorem digit_val_lt_of_radix16 {c : Char} (h : is_radix16_digit c = true) :
    digit_val c < 16 := by
  have h1 : ((48 ≤ c.toNat ∧ c.toNat ≤ 57) ∨ (65 ≤ c.toNat ∧ c.toNat ≤ 70)) ∨
      (97 ≤ c.toNat ∧ c.toNat ≤ 102) := by
    simpa [is_radix16_digit, is_ascii_digit] using h
  unfold digit_val
  split
  · omega
  · split <;> omega

theorem digit_val_digitChar : ∀ d, d < 16 → digit_val (Nat.digitChar d) = d := by decide

theorem lower_hex_digitChar : ∀ d, d < 16 → is_lower_hex (Nat.digitChar d) = true := by
  decide

theorem ascii_digit_digitChar : ∀ d, d < 10 → is_ascii_digit (Nat.digitChar d) = true := by
  decide

theorem length_nat_digits_rev (b : Nat) :
    ∀ fuel n, (nat_digits_rev b fuel n).length ≤ fuel := by
  intro fuel
  induction fuel with
  | zero => intro n; simp [nat_digits_rev]
  | succ f ih =>
    intro n
    unfold nat_digits_rev
    split
    · simp
    · simpa using ih (n / b)

theorem mem_nat_digits_rev_lt (b : Nat) (hb : 0 < b) :
    ∀ fuel n d, d ∈ nat_digits_rev b fuel n → d < b := by
  intro fuel
  induction fuel with
  | zero => intro n d h; simp [nat_digits_rev] at h
  | succ f ih =>
    intro n d h
    unfold nat_digits_rev at h
    split at h
    · simp at h
    · rcases List.mem_cons.mp h with h1 | h1
      · rw [h1]; exact Nat.mod_lt _ hb
      · exact ih _ _ h1

theorem foldl_digits_value (b : Nat) (hb2 : 2 ≤ b) (hb16 : b ≤ 16) :
    ∀ fuel n, n < b ^ fuel →
      List.foldl (fun a c => a * b + digit_val c) 0
        ((nat_digits_rev b fuel n).reverse.map Nat.digitChar) = n := by
  intro fuel
  induction fuel with
  | zero =>
    intro n hn
    have h0 : n = 0 := by simpa using hn
    rw [h0]
    simp [nat_digits_rev]
  | succ f ih =>
    intro n hn
    by_cases h0 : n = 0
    · rw [h0]; simp [nat_digits_rev]
    · unfold nat_digits_rev
      rw [if_neg h0, List.reverse_cons, List.map_append, List.foldl_append]
      have hdiv : n / b < b ^ f := by
        rw [Nat.div_lt_iff_lt_mul (by omega)]
        rw [pow_succ] at hn
        exact hn
      rw [ih (n / b) hdiv]
      have hmod : n % b < 16 := lt_of_lt_of_le (Nat.mod_lt _ (by omega)) hb16
      simp [digit_val_digitChar (n % b) hmod]
      rw [Nat.mul_comm]
      exact Nat.div_add_mod n b

theorem radix_value_nat_to_base (b : Nat) (hb2 : 2 ≤ b) (hb16 : b ≤ 16)
    (fuel n : Nat) (hn : n < b ^ fuel) :
    radix_value b (nat_to_base b fuel n) = n := by
  unfold nat_to_base
  split
  · rename_i h0
    rw [h0]
    simp [radix_value, digit_val]
  · exact foldl_digits_value b hb2 hb16 fuel n hn

theorem all_nat_to_base (b fuel n : Nat) (hb : 0 < b) (p : Char → Bool)
    (h0 : p '0' = true) (hd : ∀ d, d < b → p (Nat.digitChar d) = true) :
    (nat_to_base b fuel n).all p = true := by
  unfold nat_to_base
  split
  · simp [h0]
  · rw [List.all_eq_true]
    intro c hc
    rw [List.mem_map] at hc
    obtain ⟨d, hd2, rfl⟩ := hc
    rw [List.mem_reverse] at hd2
    exact hd d (mem_nat_digits_rev_lt b hb fuel n d hd2)

theorem length_nat_to_base_pos (b fuel n : Nat) (hf : 1 ≤ fuel) :
    1 ≤ (nat_to_base b fuel n).length := by
  unfold nat_to_base
  split
  · simp
  · rename_i h0
    cases fuel with
    | zero => omega
    | succ f =>
      unfold nat_digits_rev
      rw [if_neg h0]
      simp

theorem length_nat_to_base_le (b fuel n : Nat) (hf : 1 ≤ fuel) :
    (nat_to_base b fuel n).length ≤ fuel := by
  unfold nat_to_base
  split
  · simpa using hf
  · simpa using length_nat_digits_rev b fuel n

theorem length_hex_pad32 (n : Nat) : (hex_pad32 n).length = 32 := by
  have h := length_nat_to_base_le 16 32 n (by omega)
  rw [hex_pad32]
  rw [List.length_append, List.length_replicate]
  rw [nat_to_hex] at *
  omega

theorem all_hex_pad32 (n : Nat) : (hex_pad32 n).all is_lower_hex = true := by
  rw [List.all_eq_true]
  intro c hc
  rw [hex_pad32, List.mem_append] at hc
  rcases hc with hc | hc
  · rw [(List.mem_replicate.mp hc).2]; decide
  · have hall := all_nat_to_base 16 32 n (by omega) is_lower_hex (by decide)
      (fun d hd => lower_hex_digitChar d (by omega))
    rw [nat_to_hex] at hc
    exact List.all_eq_true.mp hall c hc

theorem foldl_zeros (b : Nat) :
    ∀ k, List.foldl (fun a c => a * b + digit_val c) 0 (List.replicate k '0') = 0 := by
  intro k
  induction k with
  | zero => rfl
  | succ m ih =>
    rw [List.replicate_succ, List.foldl_cons]
    have h0 : 0 * b + digit_val '0' = 0 := by simp [digit_val]
    rw [h0]
    exact ih

theorem radix_value_hex_pad32 (n : Nat) (hn : n < 2 ^ 128) :
    radix_value 16 (hex_pad32 n) = n := by
  rw [hex_pad32, radix_value, List.foldl_append, foldl_zeros]
  have h128 : n < 16 ^ 32 := by
    rw [show (16 : Nat) ^ 32 = 2 ^ 128 by norm_num]
    exact hn
  exact radix_value_nat_to_base 16 (by omega) (by omega) 32 n h128

theorem strip_plus_eq_self {l : List Char} (h : ∀ c ∈ l, c ≠ '+') :
    strip_plus l = l := by
  cases l with
  | nil => rfl
  | cons c t => simp [strip_plus, h c (List.mem_cons_self c t)]

theorem from_str_radix_digits_eq (b bound : Nat) (valid : Char → Bool)
    (s : List Char) (hne : s ≠ []) (hall : s.all valid = true)
    (hplus : ∀ c ∈ s, c ≠ '+') :
    from_str_radix_digits b valid bound s =
      if radix_value b s < bound then some (radix_value b s) else none := by
  unfold from_str_radix_digits
  rw [strip_plus_eq_self hplus]
  rw [if_pos ⟨hne, hall⟩]

theorem foldl_value_lt (b : Nat) (_hb : 2 ≤ b) (valid : Char → Bool)
    (hv : ∀ c, valid c = true → digit_val c < b) :
    ∀ (cs : List Char) (a : Nat), cs.all valid = true →
      List.foldl (fun a c => a * b + digit_val c) a cs < (a + 1) * b ^ cs.length := by
  intro cs
  induction cs with
  | nil => intro a _; simp
  | cons c t ih =>
    intro a hall
    rw [List.all_cons, Bool.and_eq_true] at hall
    have h1 := ih (a * b + digit_val c) hall.2
    have h2 : digit_val c < b := hv c hall.1
    rw [List.foldl_cons]
    refine lt_of_lt_of_le h1 ?_
    have h3 : a * b + digit_val c + 1 ≤ (a + 1) * b := by
      rw [Nat.add_mul, Nat.one_mul]
      omega
    calc (a * b + digit_val c + 1) * b ^ t.length
        ≤ (a + 1) * b * b ^ t.length := Nat.mul_le_mul_right _ h3
      _ = (a + 1) * b ^ (c :: t).length := by
          rw [List.length_cons, pow_succ]
          ring

theorem radix_value_lt_pow (b : Nat) (hb : 2 ≤ b) (valid : Char → Bool)
    (hv : ∀ c, valid c = true → digit_val c < b) (cs : List Char)
    (hall : cs.all valid = true) : radix_value b cs < b ^ cs.length := by
  have h := foldl_value_lt b hb valid hv cs 0 hall
  rw [Nat.zero_add, Nat.one_mul] at h
  exact h

theorem takeWhile_append_all {p : Char → Bool} (l1 l2 : List Char)
    (h : l1.all p = true) :
    (l1 ++ l2).takeWhile p = l1 ++ l2.takeWhile p := by
  induction l1 with
  | nil => rfl
  | cons c t ih =>
    rw [List.all_cons, Bool.and_eq_true] at h
    rw [List.cons_append, List.takeWhile_cons_of_pos h.1, ih h.2]
    rfl

theorem dropWhile_append_all {p : Char → Bool} (l1 l2 : List Char)
    (h : l1.all p = true) :
    (l1 ++ l2).dropWhile p = l2.dropWhile p := by
  induction l1 with
  | nil => rfl
  | cons c t ih =>
    rw [List.all_cons, Bool.and_eq_true] at h
    rw [List.cons_append, List.dropWhile_cons_of_pos h.1]
    exact ih h.2

theorem all_takeWhile_self {p : Char → Bool} (l : List Char) :
    (l.takeWhile p).all p = true := by
  induction l with
  | nil => rfl
  | cons c t ih =>
    by_cases hc : p c = true
    · rw [List.takeWhile_cons_of_pos hc, List.all_cons, Bool.and_eq_true]
      exact ⟨hc, ih⟩
    · rw [List.takeWhile_cons_of_neg hc]
      rfl

theorem dropWhile_eq_self_of_all {p : Char → Bool} {l : List Char}
    (h : ∀ c ∈ l, p c = false) : l.dropWhile p = l := by
  cases l with
  | nil => rfl
  | cons c t =>
    rw [List.dropWhile_cons_of_neg]
    simp [h c (List.mem_cons_self c t)]

theorem trim_eq_self {l : List Char} (h : ∀ c ∈ l, rust_is_whitespace c = false) :
    trim l = l := by
  rw [trim, dropWhile_eq_self_of_all h,
    dropWhile_eq_self_of_all (fun c hc => h c (List.mem_reverse.mp hc))]
  exact List.reverse_reverse l

theorem takeWhile_eq_self_of_all {p : Char → Bool} (l : List Char)
    (h : l.all p = true) : l.takeWhile p = l := by
  induction l with
  | nil => rfl
  | cons c t ih =>
    rw [List.all_cons, Bool.and_eq_true] at h
    rw [List.takeWhile_cons_of_pos h.1, ih h.2]

theorem dropWhile_eq_nil_of_all {p : Char → Bool} (l : List Char)
    (h : l.all p = true) : l.dropWhile p = [] := by
  induction l with
  | nil => rfl
  | cons c t ih =>
    rw [List.all_cons, Bool.and_eq_true] at h
    rw [List.dropWhile_cons_of_pos h.1]
    exact ih h.2

theorem from_hex_grammar (t : List Char) (h32 : t.length = 32)
    (hall : t.all is_lower_hex = true) :
    TraceId.from_hex t = some (radix_value 16 t) := by
  have hne : t ≠ [] := by intro h; rw [h] at h32; simp at h32
  have hplus : ∀ c ∈ t, c ≠ '+' :=
    fun c hc => ne_plus_of_lower_hex (List.all_eq_true.mp hall c hc)
  have hall16 : t.all is_radix16_digit = true := by
    rw [List.all_eq_true] at hall ⊢
    exact fun c hc => is_radix16_of_lower_hex (hall c hc)
  have hbound : radix_value 16 t < 2 ^ 128 := by
    have hlt := radix_value_lt_pow 16 (by omega) is_radix16_digit
      (fun c hc => digit_val_lt_of_radix16 hc) t hall16
    rw [h32] at hlt
    calc radix_value 16 t < 16 ^ 32 := hlt
      _ = 2 ^ 128 := by norm_num
  rw [TraceId.from_hex, from_str_radix_digits_eq 16 (2 ^ 128) is_radix16_digit t
    hne hall16 hplus, if_pos hbound]

theorem parse_u64_grammar (s : List Char) (hne : s ≠ [])
    (hall : s.all is_ascii_digit = true) :
    parse_u64 s =
      if radix_value 10 s < 2 ^ 64 then some (radix_value 10 s) else none := by
  have hplus : ∀ c ∈ s, c ≠ '+' := fun c hc =>
    ne_plus_of_lower_hex (lower_hex_of_ascii_digit (List.all_eq_true.mp hall c hc))
  rw [parse_u64]
  exact from_str_radix_digits_eq 10 (2 ^ 64) is_ascii_digit s hne hall hplus

theorem all_nat_to_dec (n : Nat) : (nat_to_dec n).all is_ascii_digit = true := by
  rw [nat_to_dec]
  exact all_nat_to_base 10 20 n (by omega) is_ascii_digit (by decide)
    (fun d hd => ascii_digit_digitChar d hd)

theorem length_nat_to_dec_pos (n : Nat) : 1 ≤ (nat_to_dec n).length :=
  length_nat_to_base_pos 10 20 n (by omega)

theorem length_nat_to_dec_le (n : Nat) : (nat_to_dec n).length ≤ 20 :=
  length_nat_to_base_le 10 20 n (by omega)

theorem parse_u64_nat_to_dec (n : Nat) (hn : n < 2 ^ 64) :
    parse_u64 (nat_to_dec n) = some n := by
  have hne : nat_to_dec n ≠ [] := by
    have hlen := length_nat_to_dec_pos n
    intro h
    rw [h] at hlen
    simp at hlen
  have hval : radix_value 10 (nat_to_dec n) = n := by
    rw [nat_to_dec]
    refine radix_value_nat_to_base 10 (by omega) (by omega) 20 n ?_
    have h20 : (2 : Nat) ^ 64 ≤ 10 ^ 20 := by norm_num
    omega
  rw [parse_u64_grammar _ hne (all_nat_to_dec n), hval, if_pos hn]

theorem from_hex_hex_pad32 (n : Nat) (hn : n < 2 ^ 128) :
    TraceId.from_hex (hex_pad32 n) = some n := by
  rw [from_hex_grammar (hex_pad32 n) (length_hex_pad32 n) (all_hex_pad32 n),
    radix_value_hex_pad32 n hn]

theorem regexCaptures_no_suffix (t s : List Char) (h32 : t.length = 32)
    (hthex : t.all is_lower_hex = true) (hs1 : 1 ≤ s.length)
    (hs20 : s.length ≤ 20) (hsdig : s.all is_ascii_digit = true) :
    regexCaptures (t ++ '/' :: s) = some (t, s, none) := by
  have htake : (t ++ '/' :: s).take 32 = t := List.take_left' h32
  have hdrop : (t ++ '/' :: s).drop 32 = '/' :: s := List.drop_left' h32
  rw [regexCaptures, htake, hdrop, if_pos ⟨h32, hthex⟩]
  simp only [if_true, takeWhile_eq_self_of_all s hsdig, dropWhile_eq_nil_of_all s hsdig]
  rw [if_pos ⟨hs1, hs20⟩]

theorem regexCaptures_suffix (t s : List Char) (d : Char) (h32 : t.length = 32)
    (hthex : t.all is_lower_hex = true) (hs1 : 1 ≤ s.length)
    (hs20 : s.length ≤ 20) (hsdig : s.all is_ascii_digit = true)
    (hd : is_ascii_digit d = true) :
    regexCaptures (t ++ '/' :: (s ++ [';', 'o', '=', d])) = some (t, s, some d) := by
  have htake : (t ++ '/' :: (s ++ [';', 'o', '=', d])).take 32 = t :=
    List.take_left' h32
  have hdrop : (t ++ '/' :: (s ++ [';', 'o', '=', d])).drop 32
      = '/' :: (s ++ [';', 'o', '=', d]) := List.drop_left' h32
  have htw : (s ++ [';', 'o', '=', d]).takeWhile is_ascii_digit = s := by
    rw [takeWhile_append_all s _ hsdig, List.takeWhile_cons_of_neg (by decide),
      List.append_nil]
  have hdw : (s ++ [';', 'o', '=', d]).dropWhile is_ascii_digit = [';', 'o', '=', d] := by
    rw [dropWhile_append_all s _ hsdig, List.dropWhile_cons_of_neg (by decide)]
  rw [regexCaptures, htake, hdrop, if_pos ⟨h32, hthex⟩]
  simp only [if_true, htw, hdw]
  rw [if_pos ⟨hs1, hs20⟩]
  simp only [hd, and_true, true_and, if_true]

theorem regexCaptures_inv {x t s : List Char} {fl : Option Char}
    (h : regexCaptures x = some (t, s, fl)) :
    t.length = 32 ∧ t.all is_lower_hex = true ∧ 1 ≤ s.length ∧ s.length ≤ 20 ∧
      s.all is_ascii_digit = true ∧
      ((fl = none ∧ x = t ++ '/' :: s) ∨
        ∃ d, fl = some d ∧ is_ascii_digit d = true ∧
          x = t ++ '/' :: (s ++ [';', 'o', '=', d])) := by
  rw [regexCaptures] at h
  split at h
  case isFalse => simp at h
  case isTrue hcond =>
    split at h
    case h_1 => simp at h
    case h_2 c r2 heq =>
      split at h
      case isFalse => simp at h
      case isTrue hc =>
        split at h
        case isFalse => simp at h
        case isTrue hlen =>
          have hx : x = x.take 32 ++ '/' :: r2 := by
            rw [hc] at heq
            rw [← heq]
            exact (List.take_append_drop 32 x).symm
          have hr2 : r2 = r2.takeWhile is_ascii_digit ++ r2.dropWhile is_ascii_digit :=
            (List.takeWhile_append_dropWhile is_ascii_digit r2).symm
          split at h
          case h_1 hdw =>
            rw [Option.some.injEq, Prod.mk.injEq, Prod.mk.injEq] at h
            obtain ⟨ht, hs, hfl⟩ := h
            refine ⟨?_, ?_, ?_, ?_, ?_, Or.inl ⟨hfl.symm, ?_⟩⟩
            · rw [← ht]; exact hcond.1
            · rw [← ht]; exact hcond.2
            · rw [← hs]; exact hlen.1
            · rw [← hs]; exact hlen.2
            · rw [← hs]; exact all_takeWhile_self r2
            · rw [hx, ht, ← hs]
              rw [hdw] at hr2
              rw [List.append_nil] at hr2
              rw [← hr2]
          case h_2 c1 c2 c3 d r4 hdw =>
            split at h
            case isFalse => simp at h
            case isTrue hcs =>
              obtain ⟨hc1, hc2, hc3, hr4, hdd⟩ := hcs
              rw [Option.some.injEq, Prod.mk.injEq, Prod.mk.injEq] at h
              obtain ⟨ht, hs, hfl⟩ := h
              refine ⟨?_, ?_, ?_, ?_, ?_, Or.inr ⟨d, hfl.symm, hdd, ?_⟩⟩
              · rw [← ht]; exact hcond.1
              · rw [← ht]; exact hcond.2
              · rw [← hs]; exact hlen.1
              · rw [← hs]; exact hlen.2
              · rw [← hs]; exact all_takeWhile_self r2
              · rw [hx, ht, ← hs]
                rw [hc1, hc2, hc3, hr4] at hdw
                rw [hdw] at hr2
                rw [← hr2]
          case h_3 => simp at h

theorem matches_of_captures {x t s : List Char} {fl : Option Char}
    (h : regexCaptures x = some (t, s, fl)) : matches_header_grammar x := by
  obtain ⟨h32, hhex, h1, h20, hdig, hcase⟩ := regexCaptures_inv h
  rcases hcase with ⟨_, hx⟩ | ⟨d, _, hd, hx⟩
  · exact ⟨t, s, h32, hhex, h1, h20, hdig, Or.inl hx⟩
  · exact ⟨t, s, h32, hhex, h1, h20, hdig, Or.inr ⟨d, hd, hx⟩⟩

theorem captures_isSome_of_matches {x : List Char} (h : matches_header_grammar x) :
    (regexCaptures x).isSome = true := by
  obtain ⟨t, s, h32, hhex, h1, h20, hdig, hcase⟩ := h
  rcases hcase with hx | ⟨d, hd, hx⟩
  · rw [hx, regexCaptures_no_suffix t s h32 hhex h1 h20 hdig]
    rfl
  · rw [hx]
    rw [regexCaptures_suffix t s d h32 hhex h1 h20 hdig hd]
    rfl

theorem not_matches_of_captures_none {x : List Char} (h : regexCaptures x = none) :
    ¬ matches_header_grammar x := by
  intro hm
  have h2 := captures_isSome_of_matches hm
  rw [h] at h2
  simp at h2

theorem construct_ok_of (tid sid f : Nat) (t s : List Char)
    (ht : TraceId.from_hex t = some tid) (hs : parse_u64 s = some sid)
    (htid : tid ≠ 0) (hsid : sid ≠ 0) :
    construct_span_context f t s = .ok ⟨tid, sid, f, true, []⟩ := by
  have hvalid : (SpanContext.mk tid sid f true []).is_valid = true := by
    simp [SpanContext.is_valid, Bool.and_eq_true, bne_iff_ne]
    exact ⟨htid, hsid⟩
  rw [construct_span_context, ht, hs]
  simp only [hvalid, if_true]

theorem construct_ok_inv {f : Nat} {t s : List Char} {sc : SpanContext}
    (h : construct_span_context f t s = .ok sc) :
    ∃ tid sid, TraceId.from_hex t = some tid ∧ parse_u64 s = some sid ∧
      sc = ⟨tid, sid, f, true, []⟩ ∧ tid ≠ 0 ∧ sid ≠ 0 := by
  rw [construct_span_context] at h
  split at h
  case h_1 => simp at h
  case h_2 tid htid =>
    split at h
    case h_1 => simp at h
    case h_2 sid hsid =>
      replace h : (if (SpanContext.mk tid sid f true []).is_valid = true
          then Except.ok (SpanContext.mk tid sid f true [])
          else Except.error DecodeError.invalidContext) = Except.ok sc := h
      split at h
      case isTrue hvalid =>
        rw [Except.ok.injEq] at h
        have hv : tid ≠ 0 ∧ sid ≠ 0 := by
          simpa [SpanContext.is_valid, Bool.and_eq_true, bne_iff_ne] using hvalid
        exact ⟨tid, sid, htid, hsid, h.symm, hv.1, hv.2⟩
      case isFalse => simp at h

theorem extract_missing {c : Carrier}
    (hg : c.get CLOUD_TRACE_CONTEXT_HEADER = none) :
    extract_span_context c = .error .missing := by
  rw [extract_span_context, extract_span_context_gen, hg]
  rfl

theorem extract_eq_construct {c : Carrier} {v : String} {t s : List Char}
    {fl : Option Char} (hg : c.get CLOUD_TRACE_CONTEXT_HEADER = some v)
    (hc : regexCaptures (trim v.data) = some (t, s, fl)) :
    extract_span_context c = construct_span_context (trace_flags_of fl) t s := by
  rw [extract_span_context, extract_span_context_gen, hg]
  simp only [Option.map_some']
  rw [hc]

theorem extract_malformed {c : Carrier} {v : String}
    (hg : c.get CLOUD_TRACE_CONTEXT_HEADER = some v)
    (hc : regexCaptures (trim v.data) = none) :
    extract_span_context c = .error .malformed := by
  rw [extract_span_context, extract_span_context_gen, hg]
  simp only [Option.map_some']
  rw [hc]

theorem extract_ok_inv {c : Carrier} {sc : SpanContext}
    (h : extract_span_context c = .ok sc) :
    ∃ v t s fl, c.get CLOUD_TRACE_CONTEXT_HEADER = some v ∧
      regexCaptures (trim v.data) = some (t, s, fl) ∧
      construct_span_context (trace_flags_of fl) t s = .ok sc := by
  rw [extract_span_context, extract_span_context_gen] at h
  cases hg : Carrier.get c CLOUD_TRACE_CONTEXT_HEADER with
  | none => rw [hg] at h; simp at h
  | some v =>
    rw [hg] at h
    simp only [Option.map_some'] at h
    cases hc : regexCaptures (trim v.data) with
    | none => rw [hc] at h; simp at h
    | some trip =>
      obtain ⟨t, s2, fl⟩ := trip
      rw [hc] at h
      exact ⟨v, t, s2, fl, rfl, hc, h⟩

theorem extract_gen_regex_none {c : Carrier} {v : String}
    (hg : c.get CLOUD_TRACE_CONTEXT_HEADER = some v) :
    extract_span_context_gen none c = .error .regexUnavailable := by
  rw [extract_span_context_gen, hg]
  rfl

theorem get_set (c : Carrier) (k v : String) :
    (c.set k v).get k = some v := by
  rw [Carrier.get, Carrier.set]
  simp

theorem not_ws_of_mem_dec {c : Char} {n : Nat} (h : c ∈ nat_to_dec n) :
    rust_is_whitespace c = false :=
  not_ws_of_lower_hex (lower_hex_of_ascii_digit
    (List.all_eq_true.mp (all_nat_to_dec n) c h))

theorem not_ws_of_mem_hex {c : Char} {n : Nat} (h : c ∈ hex_pad32 n) :
    rust_is_whitespace c = false :=
  not_ws_of_lower_hex (List.all_eq_true.mp (all_hex_pad32 n) c h)

theorem trim_encoded (tid sid f : Nat) :
    trim (hex_pad32 tid ++ '/' :: nat_to_dec sid ++ ';' :: 'o' :: '=' :: nat_to_dec f)
      = hex_pad32 tid ++ '/' :: nat_to_dec sid ++ ';' :: 'o' :: '=' :: nat_to_dec f := by
  apply trim_eq_self
  intro c hc
  rw [List.mem_append] at hc
  rcases hc with hc | hc
  · rw [List.mem_append] at hc
    rcases hc with hc | hc
    · exact not_ws_of_mem_hex hc
    · rw [List.mem_cons] at hc
      rcases hc with rfl | hc
      · decide
      · exact not_ws_of_mem_dec hc
  · rw [List.mem_cons] at hc
    rcases hc with rfl | hc
    · decide
    · rw [List.mem_cons] at hc
      rcases hc with rfl | hc
      · decide
      · rw [List.mem_cons] at hc
        rcases hc with rfl | hc
        · decide
        · exact not_ws_of_mem_dec hc

theorem inject_valid {cx : Context} (h : cx.span.is_valid = true) (inj : Carrier) :
    inject_context cx inj = inj.set CLOUD_TRACE_CONTEXT_HEADER
      (String.mk (hex_pad32 cx.span.traceId ++ '/' :: nat_to_dec cx.span.spanId
        ++ ';' :: 'o' :: '=' :: nat_to_dec cx.span.traceFlags)) := by
  rw [inject_context]
  simp only [h, if_true]

theorem construct_error_cases (f : Nat) (t s : List Char) (tid : Nat)
    (ht : TraceId.from_hex t = some tid)
    (h : tid = 0 ∨ (∀ sid, parse_u64 s = some sid → sid = 0)) :
    ∃ e, construct_span_context f t s = .error e := by
  rw [construct_span_context, ht]
  cases hps : parse_u64 s with
  | none => exact ⟨.invalidSpanId, rfl⟩
  | some sid =>
    have hz : tid = 0 ∨ sid = 0 := by
      rcases h with h | h
      · exact Or.inl h
      · exact Or.inr (h sid hps)
    have hv : (SpanContext.mk tid sid f true []).is_valid = false := by
      rcases hz with rfl | rfl
      · rfl
      · simp [SpanContext.is_valid]
    refine ⟨.invalidContext, ?_⟩
    have hgoal : (if (SpanContext.mk tid sid f true []).is_valid = true
        then Except.ok (SpanContext.mk tid sid f true [])
        else Except.error DecodeError.invalidContext)
        = Except.error DecodeError.invalidContext := by
      rw [hv]
      simp
    exact hgoal

/-- C1: encoding a valid trace context (non-zero 128-bit trace id, non-zero
64-bit span id, either sampling decision, any remote marker and trace state)
into a carrier and then decoding that carrier succeeds and reconstructs a
context with the same trace id, the same span id and the same sampling
decision as the original. -/
theorem roundtrip_encode_decode (tid sid : Nat) (sampled r : Bool)
    (st : List (String × String)) (c : Carrier)
    (h1 : 0 < tid) (h2 : tid < 2 ^ 128) (h3 : 0 < sid) (h4 : sid < 2 ^ 64) :
    ∃ sc', extract_span_context
        (inject_context ⟨⟨tid, sid, if sampled then 1 else 0, r, st⟩⟩ c) = .ok sc' ∧
      sc'.traceId = tid ∧ sc'.spanId = sid ∧
      sc'.is_sampled = SpanContext.is_sampled ⟨tid, sid, if sampled then 1 else 0, r, st⟩ := by
  have hvalid : (SpanContext.mk tid sid (if sampled then 1 else 0) r st).is_valid = true := by
    simp [SpanContext.is_valid, Bool.and_eq_true, bne_iff_ne]
    omega
  have hfc : nat_to_dec (if sampled then 1 else 0) = [if sampled then '1' else '0'] := by
    cases sampled <;> rfl
  have hdigit : is_ascii_digit (if sampled then '1' else '0') = true := by
    cases sampled <;> decide
  have htf : trace_flags_of (some (if sampled then '1' else '0'))
      = (if sampled then 1 else 0) := by
    cases sampled <;> decide
  rw [inject_valid hvalid c]
  dsimp only
  have hget := get_set c CLOUD_TRACE_CONTEXT_HEADER
    (String.mk (hex_pad32 tid ++ '/' :: nat_to_dec sid
      ++ ';' :: 'o' :: '=' :: nat_to_dec (if sampled then 1 else 0)))
  have hcap : regexCaptures (trim (String.mk (hex_pad32 tid ++ '/' :: nat_to_dec sid
      ++ ';' :: 'o' :: '=' :: nat_to_dec (if sampled then 1 else 0))).data)
      = some (hex_pad32 tid, nat_to_dec sid, some (if sampled then '1' else '0')) := by
    show regexCaptures (trim (hex_pad32 tid ++ '/' :: nat_to_dec sid
      ++ ';' :: 'o' :: '=' :: nat_to_dec (if sampled then 1 else 0))) = _
    rw [trim_encoded]
    have hshape : hex_pad32 tid ++ '/' :: nat_to_dec sid
        ++ ';' :: 'o' :: '=' :: nat_to_dec (if sampled then 1 else 0)
        = hex_pad32 tid ++ '/' :: (nat_to_dec sid
            ++ [';', 'o', '=', if sampled then '1' else '0']) := by
      rw [hfc]
      simp
    rw [hshape]
    exact regexCaptures_suffix (hex_pad32 tid) (nat_to_dec sid)
      (if sampled then '1' else '0') (length_hex_pad32 tid) (all_hex_pad32 tid)
      (length_nat_to_dec_pos sid) (length_nat_to_dec_le sid) (all_nat_to_dec sid)
      hdigit
  rw [extract_eq_construct hget hcap, htf,
    construct_ok_of tid sid (if sampled then 1 else 0) (hex_pad32 tid)
      (nat_to_dec sid) (from_hex_hex_pad32 tid h2) (parse_u64_nat_to_dec sid h4)
      (by omega) (by omega)]
  exact ⟨⟨tid, sid, if sampled then 1 else 0, true, []⟩, rfl, rfl, rfl, rfl⟩

/-- C2 counterexample: a valid span context whose raw flags byte is 2 is not
sampled (bit 0 clear), yet encode writes the header with flag character 2,
not the character 0 the claim requires for a not-sampled context. -/
theorem flag_byte_passthrough_counterexample :
    SpanContext.is_sampled ⟨1, 1, 2, true, []⟩ = false ∧
    Carrier.get (inject_context ⟨⟨1, 1, 2, true, []⟩⟩ (fun _ => none))
        CLOUD_TRACE_CONTEXT_HEADER
      = some "00000000000000000000000000000001/1;o=2" := by
  constructor
  · rfl
  · decide

/-- C2 amended: for every valid context, encode writes the raw trace-flags
byte rendered in decimal after the literal ;o= suffix; that rendering is the
character 1 exactly when the flags byte equals 1 and the character 0 exactly
when it equals 0, and any other flags byte is carried through as its decimal
rendering rather than being normalized to the binary sampling decision. -/
theorem inject_writes_raw_flag_byte (tid sid f : Nat) (r : Bool)
    (st : List (String × String)) (c : Carrier)
    (h1 : 0 < tid) (h3 : 0 < sid) (hf : f < 256) :
    Carrier.get (inject_context ⟨⟨tid, sid, f, r, st⟩⟩ c) CLOUD_TRACE_CONTEXT_HEADER
      = some (String.mk (hex_pad32 tid ++ '/' :: nat_to_dec sid
          ++ ';' :: 'o' :: '=' :: nat_to_dec f)) ∧
    (nat_to_dec f = ['1'] ↔ f = 1) ∧ (nat_to_dec f = ['0'] ↔ f = 0) := by
  have hval : radix_value 10 (nat_to_dec f) = f := by
    rw [nat_to_dec]
    refine radix_value_nat_to_base 10 (by omega) (by omega) 20 f ?_
    have h20 : (256 : Nat) ≤ 10 ^ 20 := by norm_num
    omega
  have hvalid : (SpanContext.mk tid sid f r st).is_valid = true := by
    simp [SpanContext.is_valid, Bool.and_eq_true, bne_iff_ne]
    omega
  refine ⟨?_, ?_, ?_⟩
  · rw [inject_valid hvalid c]
    dsimp only
    exact get_set c CLOUD_TRACE_CONTEXT_HEADER _
  · constructor
    · intro h
      rw [h] at hval
      have h1v : radix_value 10 ['1'] = 1 := by decide
      rw [h1v] at hval
      omega
    · intro h
      rw [h]
      rfl
  · constructor
    · intro h
      rw [h] at hval
      have h0v : radix_value 10 ['0'] = 0 := by decide
      rw [h0v] at hval
      omega
    · intro h
      rw [h]
      rfl

/-- C3: for every header value matching the grammar, decode yields sampled
true when the ;o= suffix is absent, sampled false when the suffix digit is 0,
and sampled true when the suffix digit is any other digit. -/
theorem decode_sampling_flag (c : Carrier) (v : String) (t s : List Char)
    (fl : Option Char) (sc : SpanContext)
    (hg : c.get CLOUD_TRACE_CONTEXT_HEADER = some v)
    (hc : regexCaptures (trim v.data) = some (t, s, fl))
    (hok : extract_span_context c = .ok sc) :
    (fl = none → sc.is_sampled = true) ∧
    (fl = some '0' → sc.is_sampled = false) ∧
    (∀ d, fl = some d → d ≠ '0' → sc.is_sampled = true) := by
  rw [extract_eq_construct hg hc] at hok
  obtain ⟨tid, sid, _, _, hsc, _, _⟩ := construct_ok_inv hok
  subst hsc
  refine ⟨?_, ?_, ?_⟩
  · intro h
    rw [h]
    rfl
  · intro h
    rw [h]
    rfl
  · intro d h hd
    rw [h]
    simp [SpanContext.is_sampled, trace_flags_of, TraceFlags.SAMPLED, hd]

/-- C4: a header value that matches the grammar but whose trace-id group is
the 32 zero digits, or whose span-id group denotes the decimal value 0, makes
decode fail with an error and never yields a context. -/
theorem decode_rejects_zero_ids (c : Carrier) (v : String) (t s : List Char)
    (fl : Option Char)
    (hg : c.get CLOUD_TRACE_CONTEXT_HEADER = some v)
    (hc : regexCaptures (trim v.data) = some (t, s, fl))
    (hzero : t = List.replicate 32 '0' ∨ radix_value 10 s = 0) :
    ∃ e, extract_span_context c = .error e := by
  rw [extract_eq_construct hg hc]
  obtain ⟨h32, hhex, hs1, hs20, hdig, _⟩ := regexCaptures_inv hc
  refine construct_error_cases (trace_flags_of fl) t s (radix_value 16 t)
    (from_hex_grammar t h32 hhex) ?_
  rcases hzero with hz | hz
  · left
    rw [hz]
    decide
  · right
    intro sid hsid
    have hne : s ≠ [] := fun h => by rw [h] at hs1; simp at hs1
    rw [parse_u64_grammar s hne hdig] at hsid
    by_cases hb : radix_value 10 s < 2 ^ 64
    · rw [if_pos hb, Option.some.injEq] at hsid
      omega
    · rw [if_neg hb] at hsid
      simp at hsid

/-- C5: a present header value that, after trimming surrounding whitespace,
does not match the anchored grammar in full makes decode fail at the
match-failure site and never yields a partially populated context. -/
theorem decode_rejects_nonmatching (c : Carrier) (v : String)
    (hg : c.get CLOUD_TRACE_CONTEXT_HEADER = some v)
    (hnm : ¬ matches_header_grammar (trim v.data)) :
    extract_span_context c = .error .malformed := by
  cases hc : regexCaptures (trim v.data) with
  | none => exact extract_malformed hg hc
  | some trip =>
    obtain ⟨t, s, fl⟩ := trip
    exact absurd (matches_of_captures hc) hnm

/-- C6: a carrier without the fixed header name makes decode fail at the
missing-header site, and after any failed extraction the ambient context
handed back to the caller is exactly the context passed in. -/
theorem missing_header_and_unchanged_context (c : Carrier) (cx : Context) :
    (c.get CLOUD_TRACE_CONTEXT_HEADER = none →
      extract_span_context c = .error .missing) ∧
    (∀ e, extract_span_context c = .error e → extract_with_context cx c = cx) := by
  constructor
  · exact extract_missing
  · intro e he
    rw [extract_with_context, he]

/-- C7: encoding a context whose span context is not valid writes nothing,
leaving the carrier's mapping for the header name and for every other key
exactly as it was. -/
theorem inject_invalid_writes_nothing (cx : Context) (c : Carrier)
    (h : cx.span.is_valid = false) : inject_context cx c = c := by
  rw [inject_context, h]
  simp

/-- C8: a grammar-matching header whose span-id group denotes a value at or
above 2 to the 64 makes decode fail at the span-id parse site; the value is
never truncated or wrapped into a context. -/
theorem decode_rejects_span_overflow (c : Carrier) (v : String) (t s : List Char)
    (fl : Option Char)
    (hg : c.get CLOUD_TRACE_CONTEXT_HEADER = some v)
    (hc : regexCaptures (trim v.data) = some (t, s, fl))
    (hov : 2 ^ 64 ≤ radix_value 10 s) :
    extract_span_context c = .error .invalidSpanId := by
  rw [extract_eq_construct hg hc]
  obtain ⟨h32, hhex, hs1, hs20, hdig, _⟩ := regexCaptures_inv hc
  rw [construct_span_context, from_hex_grammar t h32 hhex]
  have hne : s ≠ [] := fun h => by rw [h] at hs1; simp at hs1
  rw [parse_u64_grammar s hne hdig, if_neg (by omega)]

/-- C9: every span context that decode returns successfully carries the
remote marker set to true and an empty trace state. -/
theorem decode_marks_remote_empty_state (c : Carrier) (sc : SpanContext)
    (h : extract_span_context c = .ok sc) :
    sc.isRemote = true ∧ sc.traceState = [] := by
  obtain ⟨v, t, s, fl, _, _, hcon⟩ := extract_ok_inv h
  obtain ⟨tid, sid, _, _, hsc, _, _⟩ := construct_ok_inv hcon
  rw [hsc]
  exact ⟨rfl, rfl⟩

/-- C10: decode is a total function of the carrier that always returns a
value, an ok context or an error; in particular a failed compilation of the
grammar pattern is converted at its early-return site into the corresponding
error rather than escaping as an exception. -/
theorem decode_total_regex_failure_to_error
    (reg : Option (List Char → Option (List Char × List Char × Option Char)))
    (c : Carrier) :
    ((∃ e, extract_span_context_gen reg c = .error e) ∨
      (∃ sc, extract_span_context_gen reg c = .ok sc)) ∧
    (∀ v, reg = none → c.get CLOUD_TRACE_CONTEXT_HEADER = some v →
      extract_span_context_gen reg c = .error .regexUnavailable) := by
  constructor
  · cases hr : extract_span_context_gen reg c with
    | error e => exact Or.inl ⟨e, rfl⟩
    | ok sc => exact Or.inr ⟨sc, rfl⟩
  · intro v hr hv
    rw [hr]
    exact extract_gen_regex_none hv

/-- Witness for C1: the round trip evaluated at trace id 1, span id 1,
sampled, over the empty carrier. -/
theorem roundtrip_encode_decode_witness :
    ∃ sc', extract_span_context
        (inject_context ⟨⟨1, 1, 1, true, []⟩⟩ (fun _ => none)) = .ok sc' ∧
      sc'.traceId = 1 ∧ sc'.spanId = 1 ∧
      sc'.is_sampled = SpanContext.is_sampled ⟨1, 1, 1, true, []⟩ :=
  roundtrip_encode_decode 1 1 true true [] (fun _ => none)
    (by decide) (by decide) (by decide) (by decide)

/-- Witness for C2 amended: the raw-flag-byte encoding evaluated at flags
byte 2. -/
theorem inject_writes_raw_flag_byte_witness :
    Carrier.get (inject_context ⟨⟨1, 1, 2, false, []⟩⟩ (fun _ => none))
        CLOUD_TRACE_CONTEXT_HEADER
      = some (String.mk (hex_pad32 1 ++ '/' :: nat_to_dec 1
          ++ ';' :: 'o' :: '=' :: nat_to_dec 2)) ∧
    (nat_to_dec 2 = ['1'] ↔ (2 : Nat) = 1) ∧ (nat_to_dec 2 = ['0'] ↔ (2 : Nat) = 0) :=
  inject_writes_raw_flag_byte 1 1 2 false [] (fun _ => none)
    (by decide) (by decide) (by decide)

/-- Witness for C3: a header without the optional suffix decodes to a sampled
context. -/
theorem decode_sampling_flag_witness :
    SpanContext.is_sampled ⟨0x105445aa7843bc8bf206b12000100000, 1, 1, true, []⟩ = true :=
  (decode_sampling_flag
    (fun k => if k = "x-cloud-trace-context"
      then some "105445aa7843bc8bf206b12000100000/1" else none)
    "105445aa7843bc8bf206b12000100000/1"
    ("105445aa7843bc8bf206b12000100000".data) ['1'] none
    ⟨0x105445aa7843bc8bf206b12000100000, 1, 1, true, []⟩
    (by decide) (by decide) (by decide)).1 rfl

/-- Witness for C4: the all-zero trace id is rejected. -/
theorem decode_rejects_zero_ids_witness :
    ∃ e, extract_span_context
      (fun k => if k = "x-cloud-trace-context"
        then some "00000000000000000000000000000000/1" else none) = .error e :=
  decode_rejects_zero_ids
    (fun k => if k = "x-cloud-trace-context"
      then some "00000000000000000000000000000000/1" else none)
    "00000000000000000000000000000000/1"
    ("00000000000000000000000000000000".data) ['1'] none
    (by decide) (by decide) (Or.inl (by decide))

/-- Witness for C5: a header with a 16-digit trace id does not match the
grammar and decodes to the match-failure error. -/
theorem decode_rejects_nonmatching_witness :
    extract_span_context
      (fun k => if k = "x-cloud-trace-context"
        then some "105445aa7843bc8b/1;o=1" else none) = .error .malformed :=
  decode_rejects_nonmatching
    (fun k => if k = "x-cloud-trace-context"
      then some "105445aa7843bc8b/1;o=1" else none)
    "105445aa7843bc8b/1;o=1"
    (by decide) (not_matches_of_captures_none (by decide))

/-- Witness for C6: the empty carrier decodes to the missing-header error and
a failed extraction returns the given context unchanged. -/
theorem missing_header_and_unchanged_context_witness :
    extract_span_context (fun _ => none) = .error .missing ∧
    extract_with_context ⟨⟨0, 0, 0, false, []⟩⟩ (fun _ => none)
      = ⟨⟨0, 0, 0, false, []⟩⟩ :=
  ⟨(missing_header_and_unchanged_context (fun _ => none) ⟨⟨0, 0, 0, false, []⟩⟩).1 rfl,
    (missing_header_and_unchanged_context (fun _ => none) ⟨⟨0, 0, 0, false, []⟩⟩).2
      .missing
      ((missing_header_and_unchanged_context (fun _ => none) ⟨⟨0, 0, 0, false, []⟩⟩).1 rfl)⟩

/-- Witness for C7: injecting a context with a zero trace id leaves the
carrier untouched. -/
theorem inject_invalid_writes_nothing_witness :
    inject_context ⟨⟨0, 7, 1, true, []⟩⟩ (fun _ => some "x") = (fun _ => some "x") :=
  inject_invalid_writes_nothing ⟨⟨0, 7, 1, true, []⟩⟩ (fun _ => some "x") (by decide)

/-- Witness for C8: a 20-digit span id above the 64-bit range decodes to the
span-id parse error. -/
theorem decode_rejects_span_overflow_witness :
    extract_span_context
      (fun k => if k = "x-cloud-trace-context"
        then some "105445aa7843bc8bf206b12000100000/99999999999999999999" else none)
      = .error .invalidSpanId :=
  decode_rejects_span_overflow
    (fun k => if k = "x-cloud-trace-context"
      then some "105445aa7843bc8bf206b12000100000/99999999999999999999" else none)
    "105445aa7843bc8bf206b12000100000/99999999999999999999"
    ("105445aa7843bc8bf206b12000100000".data) ("99999999999999999999".data) none
    (by decide) (by decide) (by decide)

/-- Witness for C9: a successfully decoded context is remote with empty
trace state. -/
theorem decode_marks_remote_empty_state_witness :
    SpanContext.isRemote ⟨0xa, 7, 0, true, []⟩ = true ∧
    SpanContext.traceState ⟨0xa, 7, 0, true, []⟩ = [] :=
  decode_marks_remote_empty_state
    (fun k => if k = "x-cloud-trace-context"
      then some "0000000000000000000000000000000a/7;o=0" else none)
    ⟨0xa, 7, 0, true, []⟩ (by decide)

/-- Witness for C10: with the pattern compilation failed and the header
present, decode returns the pattern-unavailable error. -/
theorem decode_total_regex_failure_to_error_witness :
    extract_span_context_gen none
      (fun k => if k = "x-cloud-trace-context" then some "whatever" else none)
      = .error .regexUnavailable :=
  (decode_total_regex_failure_to_error none
    (fun k => if k = "x-cloud-trace-context" then some "whatever" else none)).2
    "whatever" rfl (by decide)

end GoogleTraceContext
